import Mathlib

/-!
# Verification of the NNAPI HAL validation and execution-planning core

A shallow embedding of `common/ValidateHal.cpp` and `runtime/ExecutionPlan.h`
from the `android_frameworks_ml` repository, together with theorems settling
the specification claims about that code.

Machine integers (`uint32_t`, `int32_t`, `size_t`) are modelled as `Nat`/`Int`;
all the arithmetic performed by the embedded code (`offset + length` promoted
to `size_t`) is non-wrapping in the source, so no explicit modular reduction is
needed.  The single-precision operand `scale` is modelled as a rational
together with an explicit NaN (`FloatVal`), because the code's `<`/`<=`
rejection tests are false on NaN and that is observable in the result;
channel-quant scales face only an accept-iff-`> 0` test, on which NaN behaves
exactly like a nonpositive value, so they stay plain rationals.
-/

namespace AndroidNN

/-! ## Data model (HAL types, latest version V1_3) -/

/-- `DataLocation { poolIndex, offset, length : uint32_t }`. -/
structure DataLocation where
  poolIndex : Nat
  offset : Nat
  length : Nat
  deriving DecidableEq, Repr

/-- `V1_3::OperandType`.  The concrete enumerators of the HAL; every extension
type (an opaque integer tag above a threshold, never one of the named
enumerators) is collapsed into the single constructor `EXTENSION`, since the
validation code only ever asks *whether* a type is an extension type. -/
inductive OperandType where
  | FLOAT16 | FLOAT32 | INT32 | UINT32 | BOOL
  | TENSOR_FLOAT16 | TENSOR_FLOAT32 | TENSOR_INT32
  | TENSOR_QUANT8_ASYMM | TENSOR_QUANT8_SYMM
  | TENSOR_QUANT16_ASYMM | TENSOR_QUANT16_SYMM
  | TENSOR_BOOL8 | TENSOR_QUANT8_SYMM_PER_CHANNEL
  | TENSOR_QUANT8_ASYMM_SIGNED | SUBGRAPH
  | OEM | TENSOR_OEM_BYTE
  | EXTENSION
  deriving DecidableEq, Repr

/-- Modelled from the spec: `isExtensionOperandType` (from `Utils.h`, not under
`src/`) recognises "extension type (an opaque integer tag above a threshold)";
with extension tags collapsed into one constructor this is a constructor test. -/
def isExtensionOperandType (t : OperandType) : Bool :=
  t == OperandType.EXTENSION

/-- `V1_3::OperandLifeTime`. -/
inductive OperandLifeTime where
  | CONSTANT_COPY | CONSTANT_REFERENCE | TEMPORARY_VARIABLE
  | SUBGRAPH_INPUT | SUBGRAPH_OUTPUT | NO_VALUE | SUBGRAPH
  deriving DecidableEq, Repr

/-- `V1_3::Operand::ExtraParams`, a tagged union.  Channel-quant scales are
floats in the source; modelled as rationals (only compared against `0`). -/
inductive ExtraParams where
  | none
  | channelQuant (channelDim : Nat) (scales : List ℚ)
  | extensionData
  deriving DecidableEq, Repr

/-- The value domain of the single-precision `scale` field.  The validation
code only ever compares `scale` against the literal `0.0f` (`!=`, `<`, `<=`),
so the only observable facts about a scale are whether it is NaN and, if not,
its sign; a rational together with an explicit NaN captures every such
distinction exactly (signed infinities order like huge finite values of the
same sign and need no separate constructor). -/
inductive FloatVal where
  | nan
  | val (q : ℚ)
  deriving DecidableEq, Repr

/-- The float literal `0.0f` (a number, not NaN). -/
instance : OfNat FloatVal 0 := ⟨FloatVal.val 0⟩

/-- IEEE comparison `x < y`: false whenever either operand is NaN. -/
def FloatVal.flt : FloatVal → FloatVal → Bool
  | .val a, .val b => decide (a < b)
  | _, _ => false

/-- IEEE comparison `x <= y`: false whenever either operand is NaN. -/
def FloatVal.fle : FloatVal → FloatVal → Bool
  | .val a, .val b => decide (a ≤ b)
  | _, _ => false

/-- IEEE equality `x == y`: false whenever either operand is NaN (the C++
`x != y` is its negation). -/
def FloatVal.feq : FloatVal → FloatVal → Bool
  | .val a, .val b => a == b
  | _, _ => false

/-- The value is the number zero (NaN is not). -/
def FloatVal.IsZero : FloatVal → Prop
  | .val q => q = 0
  | .nan => False

/-- The value is a nonnegative number (NaN is not). -/
def FloatVal.IsNonneg : FloatVal → Prop
  | .val q => 0 ≤ q
  | .nan => False

/-- The value is a strictly positive number (NaN is not). -/
def FloatVal.IsPos : FloatVal → Prop
  | .val q => 0 < q
  | .nan => False

/-- `V1_3::Operand`.  `numberOfConsumers` is carried by the HAL struct but is
never validated (source TODO at ValidateHal.cpp:227), so it is omitted. -/
structure Operand where
  type : OperandType
  dimensions : List Nat
  scale : FloatVal
  zeroPoint : Int
  lifetime : OperandLifeTime
  location : DataLocation
  extraParams : ExtraParams
  deriving DecidableEq, Repr

instance : Inhabited Operand :=
  ⟨⟨OperandType.FLOAT32, [], 0, 0, OperandLifeTime.NO_VALUE, ⟨0, 0, 0⟩, ExtraParams.none⟩⟩

/-- An operation: a tagged type code plus input/output operand indexes.  The
operation-type enumeration is opaque to this file (dispatch on it happens in
the external operator library), so the tag is a bare `Nat`. -/
structure Operation where
  type : Nat
  inputs : List Nat
  outputs : List Nat
  deriving DecidableEq, Repr

/-- `V1_3::Subgraph`. -/
structure Subgraph where
  operands : List Operand
  operations : List Operation
  inputIndexes : List Nat
  outputIndexes : List Nat
  deriving DecidableEq, Repr

instance : Inhabited Subgraph := ⟨⟨[], [], [], []⟩⟩

/-- `hidl_memory`: a named shared-memory region.  The validation code only
reads its name, its size, and whether its handle is null. -/
structure HidlMemory where
  name : String
  size : Nat
  nullHandle : Bool
  deriving DecidableEq, Repr

/-- `V1_3::Request::MemoryPool`, a tagged union: a `hidl_memory` or a driver
token (`uint32_t`). -/
inductive MemoryPool where
  | hidlMemory (mem : HidlMemory)
  | token (t : Nat)
  deriving DecidableEq, Repr

/-- `HalVersion`, totally ordered V1_0 < V1_1 < V1_2 < V1_3. -/
inductive HalVersion where
  | V1_0 | V1_1 | V1_2 | V1_3
  deriving DecidableEq, Repr

/-- Rank of a `HalVersion` in the total order (the enum's integer value). -/
def HalVersion.ord : HalVersion → Nat
  | .V1_0 => 0
  | .V1_1 => 1
  | .V1_2 => 2
  | .V1_3 => 3

/-- A V1_0/V1_1/V1_2-shaped model (operands and operations at top level).
Operands are carried in the latest-version shape; the version-specific part
of operand validation is the `validOperandType` overload, which is passed to
`validateOperands` explicitly below (mirroring the C++ template). -/
structure ModelG where
  operands : List Operand
  operations : List Operation
  inputIndexes : List Nat
  outputIndexes : List Nat
  operandValues : List Nat
  pools : List HidlMemory
  deriving DecidableEq, Repr

/-- `V1_3::Model`: a main subgraph plus referenced subgraphs. -/
structure Model13 where
  main : Subgraph
  referenced : List Subgraph
  operandValues : List Nat
  pools : List HidlMemory
  relaxedComputationFloat32toFloat16 : Bool
  deriving DecidableEq, Repr

/-- `RequestArgument { hasNoValue, location, dimensions }`. -/
structure RequestArgument where
  hasNoValue : Bool
  location : DataLocation
  dimensions : List Nat
  deriving DecidableEq, Repr

instance : Inhabited RequestArgument := ⟨⟨false, ⟨0, 0, 0⟩, []⟩⟩

/-! ## MemoryAccessVerifier (ValidateHal.cpp:56-97) -/

/-- `MemoryAccessVerifier`: caches one size per pool. -/
structure MemoryAccessVerifier where
  mPoolSizes : List Nat
  deriving DecidableEq, Repr

/-- Constructor from a `hidl_vec<hidl_memory>` (ValidateHal.cpp:58-63). -/
def MemoryAccessVerifier.ofHidl (pools : List HidlMemory) : MemoryAccessVerifier :=
  ⟨pools.map (·.size)⟩

/-- Constructor from a `hidl_vec<V1_3::Request::MemoryPool>`
(ValidateHal.cpp:64-77): a token pool's size is cached as 0 to enforce
`length == 0 && offset == 0`. -/
def MemoryAccessVerifier.ofPools (pools : List MemoryPool) : MemoryAccessVerifier :=
  ⟨pools.map fun p =>
    match p with
    | .hidlMemory mem => mem.size
    | .token _ => 0⟩

/-- `MemoryAccessVerifier::validate` (ValidateHal.cpp:78-92).  The C++ sum
`static_cast<size_t>(location.offset) + location.length` of two `uint32_t`
values cannot wrap in 64 bits, so plain `Nat` addition is exact. -/
def MemoryAccessVerifier.validate (v : MemoryAccessVerifier) (location : DataLocation) : Bool :=
  if location.poolIndex ≥ v.mPoolSizes.length then false
  else if location.offset + location.length > v.mPoolSizes.getD location.poolIndex 0 then false
  else true

/-- A 32-bit-wrapping variant of the same bound check, for exhibiting what the
promotion to 64 bits avoids: the sum is reduced mod 2^32 before comparing. -/
def MemoryAccessVerifier.validateWrap32 (v : MemoryAccessVerifier) (location : DataLocation) : Bool :=
  if location.poolIndex ≥ v.mPoolSizes.length then false
  else if (location.offset + location.length) % 2 ^ 32 > v.mPoolSizes.getD location.poolIndex 0 then
    false
  else true

/-! ## validatePool (ValidateHal.cpp:539-569) -/

/-- `validatePool(const hidl_memory&, HalVersion)` (ValidateHal.cpp:539-552). -/
def validatePool (pool : HidlMemory) (ver : HalVersion) : Bool :=
  if pool.name ≠ "ashmem" ∧ pool.name ≠ "mmap_fd" ∧
      (ver.ord < HalVersion.V1_2.ord ∨
        (pool.name ≠ "hardware_buffer_blob" ∧ pool.name ≠ "hardware_buffer")) then
    false
  else if pool.nullHandle then false
  else true

/-- `validatePool(const V1_3::Request::MemoryPool&, HalVersion)`
(ValidateHal.cpp:554-563). -/
def validatePoolMP (pool : MemoryPool) (ver : HalVersion) : Bool :=
  match pool with
  | .hidlMemory mem => validatePool mem ver
  | .token t => decide (t > 0)

/-- `validatePools` (ValidateHal.cpp:565-569), `hidl_memory` instance. -/
def validatePools (pools : List HidlMemory) (ver : HalVersion) : Bool :=
  pools.all fun pool => validatePool pool ver

/-- `validatePools`, `V1_3::Request::MemoryPool` instance. -/
def validatePoolsMP (pools : List MemoryPool) (ver : HalVersion) : Bool :=
  pools.all fun pool => validatePoolMP pool ver


/-! ## Per-operand validation (ValidateHal.cpp:99-434) -/

/-- `validateOperandExtraParams` (ValidateHal.cpp:99-164).  Note that the
require-`none` case list omits `FLOAT16`, which therefore falls into the
default case together with `OEM`, `TENSOR_OEM_BYTE` and extension types. -/
def validateOperandExtraParams (operand : Operand) : Bool :=
  match operand.type with
  | .FLOAT32 | .INT32 | .UINT32 | .BOOL | .SUBGRAPH
  | .TENSOR_FLOAT32 | .TENSOR_FLOAT16 | .TENSOR_INT32
  | .TENSOR_QUANT8_ASYMM | .TENSOR_QUANT8_ASYMM_SIGNED | .TENSOR_QUANT8_SYMM
  | .TENSOR_QUANT16_ASYMM | .TENSOR_QUANT16_SYMM | .TENSOR_BOOL8 =>
      operand.extraParams == ExtraParams.none
  | .TENSOR_QUANT8_SYMM_PER_CHANNEL =>
      match operand.extraParams with
      | .channelQuant channelDim scales =>
          let count := operand.dimensions.length
          decide (channelDim < count) &&
            (let expected := operand.dimensions.getD channelDim 0
             (scales.length == expected) && (expected != 0) &&
               scales.all fun s => decide (0 < s))
      | _ => false
  | _ =>
      if isExtensionOperandType operand.type then
        match operand.extraParams with
        | .extensionData => true
        | .none => true
        | _ => false
      else true

/-- Dimension-rank validation (ValidateHal.cpp:182-225). -/
def checkOperandDimensionRank (allowUnspecifiedRank : Bool) (operand : Operand) : Bool :=
  match operand.type with
  | .FLOAT16 | .FLOAT32 | .INT32 | .UINT32 | .BOOL | .SUBGRAPH | .OEM =>
      operand.dimensions.length == 0
  | .TENSOR_FLOAT16 | .TENSOR_FLOAT32 | .TENSOR_INT32 | .TENSOR_QUANT8_ASYMM
  | .TENSOR_QUANT8_ASYMM_SIGNED | .TENSOR_QUANT8_SYMM | .TENSOR_QUANT16_ASYMM
  | .TENSOR_QUANT16_SYMM | .TENSOR_BOOL8 | .TENSOR_QUANT8_SYMM_PER_CHANNEL
  | .TENSOR_OEM_BYTE =>
      !((!allowUnspecifiedRank || operand.lifetime == .CONSTANT_COPY ||
          operand.lifetime == .CONSTANT_REFERENCE) && operand.dimensions.length == 0)
  | _ => isExtensionOperandType operand.type

/-- Scale validation (ValidateHal.cpp:232-280).  Each arm is the negation of
the C++ rejection test, under IEEE float comparison semantics: `scale != 0.f`
rejects NaN (so acceptance is `feq scale 0`), but `scale < 0.f` and
`scale <= 0.f` are false on NaN, which NaN therefore passes. -/
def checkOperandScale (operand : Operand) : Bool :=
  match operand.type with
  | .FLOAT16 | .FLOAT32 | .INT32 | .UINT32 | .BOOL | .SUBGRAPH
  | .TENSOR_FLOAT16 | .TENSOR_FLOAT32 | .TENSOR_BOOL8
  | .TENSOR_QUANT8_SYMM_PER_CHANNEL =>
      FloatVal.feq operand.scale (FloatVal.val 0)
  | .TENSOR_INT32 => !(FloatVal.flt operand.scale (FloatVal.val 0))
  | .TENSOR_QUANT8_ASYMM | .TENSOR_QUANT8_ASYMM_SIGNED | .TENSOR_QUANT8_SYMM
  | .TENSOR_QUANT16_ASYMM | .TENSOR_QUANT16_SYMM =>
      !(FloatVal.fle operand.scale (FloatVal.val 0))
  | _ =>
      !(isExtensionOperandType operand.type &&
        !(FloatVal.feq operand.scale (FloatVal.val 0)))

/-- Zero-point validation (ValidateHal.cpp:282-344). -/
def checkOperandZeroPoint (operand : Operand) : Bool :=
  match operand.type with
  | .FLOAT16 | .FLOAT32 | .INT32 | .UINT32 | .BOOL | .SUBGRAPH
  | .TENSOR_FLOAT16 | .TENSOR_FLOAT32 | .TENSOR_INT32 | .TENSOR_BOOL8
  | .TENSOR_QUANT8_SYMM | .TENSOR_QUANT8_SYMM_PER_CHANNEL =>
      operand.zeroPoint == 0
  | .TENSOR_QUANT8_ASYMM =>
      !(decide (operand.zeroPoint < 0) || decide (operand.zeroPoint > 255))
  | .TENSOR_QUANT8_ASYMM_SIGNED =>
      !(decide (operand.zeroPoint < -128) || decide (operand.zeroPoint > 127))
  | .TENSOR_QUANT16_ASYMM =>
      !(decide (operand.zeroPoint < 0) || decide (operand.zeroPoint > 65535))
  | .TENSOR_QUANT16_SYMM => operand.zeroPoint == 0
  | _ => !(isExtensionOperandType operand.type && !(operand.zeroPoint == 0))

/-- Lifetime/location validation (ValidateHal.cpp:348-405). -/
def checkOperandLocation (operandValuesSize : Nat) (poolVerifier : MemoryAccessVerifier)
    (subgraphCount : Nat) (operand : Operand) : Bool :=
  let location := operand.location
  match operand.lifetime with
  | .CONSTANT_COPY =>
      location.poolIndex == 0 && !(location.offset + location.length > operandValuesSize)
  | .CONSTANT_REFERENCE => poolVerifier.validate location
  | .TEMPORARY_VARIABLE | .SUBGRAPH_INPUT | .SUBGRAPH_OUTPUT | .NO_VALUE =>
      !(location.poolIndex != 0 || location.offset != 0 || location.length != 0)
  | .SUBGRAPH =>
      location.poolIndex == 0 && decide (location.offset < subgraphCount) &&
        location.length == 0

/-- SUBGRAPH type/lifetime coupling (ValidateHal.cpp:407-413). -/
def checkSubgraphTypeLifetimeCoupling (operand : Operand) : Bool :=
  (operand.type == OperandType.SUBGRAPH) == (operand.lifetime == OperandLifeTime.SUBGRAPH)

/-- Constant declared-length check (ValidateHal.cpp:415-429).  The expected
size function `nonExtensionOperandSizeOfData` lives in `Utils.cpp` (not under
`src/`), so it is a parameter here. -/
def checkConstantLength (sizeOfData : Operand → Nat) (operand : Operand) : Bool :=
  if operand.lifetime == OperandLifeTime.CONSTANT_REFERENCE ||
      operand.lifetime == OperandLifeTime.CONSTANT_COPY then
    if !isExtensionOperandType operand.type && operand.type != OperandType.OEM &&
        operand.type != OperandType.TENSOR_OEM_BYTE then
      operand.location.length == sizeOfData operand
    else true
  else true

/-- `validOperandType(V1_0::OperandType)` (ValidateHal.cpp:787-801).  Also
used by V1_1 models, whose operands reuse the V1_0 type enum. -/
def validOperandTypeV1_0 (t : OperandType) : Bool :=
  match t with
  | .FLOAT32 | .INT32 | .UINT32 | .TENSOR_FLOAT32 | .TENSOR_INT32
  | .TENSOR_QUANT8_ASYMM | .OEM | .TENSOR_OEM_BYTE => true
  | _ => false

/-- `validOperandType(V1_2::OperandType)` (ValidateHal.cpp:803-825). -/
def validOperandTypeV1_2 (t : OperandType) : Bool :=
  match t with
  | .FLOAT16 | .FLOAT32 | .INT32 | .UINT32 | .BOOL | .TENSOR_FLOAT16
  | .TENSOR_FLOAT32 | .TENSOR_INT32 | .TENSOR_QUANT8_ASYMM | .TENSOR_QUANT8_SYMM
  | .TENSOR_QUANT16_ASYMM | .TENSOR_QUANT16_SYMM | .TENSOR_BOOL8
  | .TENSOR_QUANT8_SYMM_PER_CHANNEL | .OEM | .TENSOR_OEM_BYTE => true
  | _ => isExtensionOperandType t

/-- `validOperandType(V1_3::OperandType)` (ValidateHal.cpp:827-851). -/
def validOperandTypeV1_3 (t : OperandType) : Bool :=
  match t with
  | .FLOAT16 | .FLOAT32 | .INT32 | .UINT32 | .BOOL | .TENSOR_FLOAT16
  | .TENSOR_FLOAT32 | .TENSOR_INT32 | .TENSOR_QUANT8_ASYMM | .TENSOR_QUANT8_SYMM
  | .TENSOR_QUANT16_ASYMM | .TENSOR_QUANT16_SYMM | .TENSOR_BOOL8
  | .TENSOR_QUANT8_SYMM_PER_CHANNEL | .TENSOR_QUANT8_ASYMM_SIGNED | .SUBGRAPH
  | .OEM | .TENSOR_OEM_BYTE => true
  | _ => isExtensionOperandType t

/-- `validateOperands` (ValidateHal.cpp:166-434).  The version-specific
`validOperandType` overload and the external `nonExtensionOperandSizeOfData`
are parameters; `convertToV1_3` is the identity here because operands are
carried in the latest-version shape. -/
def validateOperands (validOperandTypeB : OperandType → Bool) (sizeOfData : Operand → Nat)
    (operands : List Operand) (operandValues : List Nat) (pools : List HidlMemory)
    (subgraphs : List Subgraph) (allowUnspecifiedRank : Bool) : Bool :=
  let poolVerifier := MemoryAccessVerifier.ofHidl pools
  operands.all fun operand =>
    validOperandTypeB operand.type &&
    checkOperandDimensionRank allowUnspecifiedRank operand &&
    checkOperandScale operand &&
    checkOperandZeroPoint operand &&
    validateOperandExtraParams operand &&
    checkOperandLocation operandValues.length poolVerifier subgraphs.length operand &&
    checkSubgraphTypeLifetimeCoupling operand &&
    checkConstantLength sizeOfData operand

/-! ## Specification-side predicates for the scale/zero-point tables (C5) -/

/-- The scale table of the claim (spec 4.2): written from the claim words, to
be compared against the code.  "Exactly 0", "at least 0" and "greater than 0"
are read over numbers, which NaN is not.  Types without a table row (`OEM`,
`TENSOR_OEM_BYTE`) are unconstrained. -/
def scaleSpecOk (o : Operand) : Prop :=
  match o.type with
  | .FLOAT16 | .FLOAT32 | .INT32 | .UINT32 | .BOOL | .SUBGRAPH
  | .TENSOR_FLOAT16 | .TENSOR_FLOAT32 | .TENSOR_BOOL8
  | .TENSOR_QUANT8_SYMM_PER_CHANNEL | .EXTENSION => o.scale.IsZero
  | .TENSOR_INT32 => o.scale.IsNonneg
  | .TENSOR_QUANT8_ASYMM | .TENSOR_QUANT8_ASYMM_SIGNED | .TENSOR_QUANT8_SYMM
  | .TENSOR_QUANT16_ASYMM | .TENSOR_QUANT16_SYMM => o.scale.IsPos
  | .OEM | .TENSOR_OEM_BYTE => True

/-- The scale table as amended by the code's NaN behaviour: the exactly-zero
rows are unchanged (the `!=` rejection test rejects NaN), but the
`scale < 0.f` / `scale <= 0.f` rejection tests (ValidateHal.cpp:253, 264) are
false on NaN, so TENSOR_INT32 accepts nonnegative-or-NaN and the
non-per-channel quantized tensor types accept positive-or-NaN. -/
def scaleAmendedOk (o : Operand) : Prop :=
  match o.type with
  | .FLOAT16 | .FLOAT32 | .INT32 | .UINT32 | .BOOL | .SUBGRAPH
  | .TENSOR_FLOAT16 | .TENSOR_FLOAT32 | .TENSOR_BOOL8
  | .TENSOR_QUANT8_SYMM_PER_CHANNEL | .EXTENSION => o.scale.IsZero
  | .TENSOR_INT32 => o.scale.IsNonneg ∨ o.scale = FloatVal.nan
  | .TENSOR_QUANT8_ASYMM | .TENSOR_QUANT8_ASYMM_SIGNED | .TENSOR_QUANT8_SYMM
  | .TENSOR_QUANT16_ASYMM | .TENSOR_QUANT16_SYMM =>
      o.scale.IsPos ∨ o.scale = FloatVal.nan
  | .OEM | .TENSOR_OEM_BYTE => True

/-- The zero-point table of the claim (spec 4.2): written from the claim
words.  Types without a table row (`OEM`, `TENSOR_OEM_BYTE`) are
unconstrained. -/
def zeroPointSpecOk (o : Operand) : Prop :=
  match o.type with
  | .TENSOR_QUANT8_ASYMM => 0 ≤ o.zeroPoint ∧ o.zeroPoint ≤ 255
  | .TENSOR_QUANT8_ASYMM_SIGNED => -128 ≤ o.zeroPoint ∧ o.zeroPoint ≤ 127
  | .TENSOR_QUANT16_ASYMM => 0 ≤ o.zeroPoint ∧ o.zeroPoint ≤ 65535
  | .OEM | .TENSOR_OEM_BYTE => True
  | _ => o.zeroPoint = 0


/-! ## validateOperations (ValidateHal.cpp:452-537) -/

/-- Output-lifetime and write-once scan of one operation's output list
(ValidateHal.cpp:505-520).  `writtenTo` is the set of operand indexes already
written (the C++ `std::vector<bool>` by-index flags); `Option.none` models
`return false`. -/
def markOutputs (operands : List Operand) : List Nat → List Nat → Option (List Nat)
  | [], writtenTo => some writtenTo
  | i :: rest, writtenTo =>
    let operand := operands.getD i default
    if operand.lifetime ≠ OperandLifeTime.TEMPORARY_VARIABLE ∧
        operand.lifetime ≠ OperandLifeTime.SUBGRAPH_OUTPUT then
      Option.none
    else if i ∈ writtenTo then Option.none
    else markOutputs operands rest (i :: writtenTo)

/-- The per-operation loop of `validateOperations` (ValidateHal.cpp:488-521).
`validateOp` is the external operator-library signature check (with the
operand table and the subgraph helper lambdas over `operands`/`subgraphs`
already captured); it returns `ANEURALNETWORKS_NO_ERROR = 0` on success. -/
def scanOperations (validateOp : Operation → Int) (operands : List Operand) :
    List Operation → List Nat → Option (List Nat)
  | [], writtenTo => some writtenTo
  | op :: rest, writtenTo =>
    if validateOp op ≠ 0 then Option.none
    else
      match markOutputs operands op.outputs writtenTo with
      | Option.none => Option.none
      | some w => scanOperations validateOp operands rest w

/-- `validateOperations` (ValidateHal.cpp:452-537): the per-operation scan
plus the final every-temporary-and-subgraph-output-was-written loop
(lines 522-532). -/
def validateOperations (validateOp : Operation → Int) (operations : List Operation)
    (operands : List Operand) : Bool :=
  match scanOperations validateOp operands operations [] with
  | Option.none => false
  | some writtenTo =>
      (List.range operands.length).all fun i =>
        decide (i ∈ writtenTo) ||
          ((operands.getD i default).lifetime != OperandLifeTime.TEMPORARY_VARIABLE &&
            (operands.getD i default).lifetime != OperandLifeTime.SUBGRAPH_OUTPUT)

/-- Number of times operand index `i` occurs as an operation output, summed
over an operation list (with multiplicity inside a single output list). -/
def writeCount (operations : List Operation) (i : Nat) : Nat :=
  (operations.map fun op => op.outputs.count i).sum

/-! ## validateModelInputOutputs (ValidateHal.cpp:571-595) -/

/-- `validateModelInputOutputs` (ValidateHal.cpp:571-595).  The C++ detects
duplicate indexes by sorting and `adjacent_find`; a sorted copy has equal
neighbours iff the list has a duplicate, i.e. iff it is not `Nodup`. -/
def validateModelInputOutputs (indexes : List Nat) (operands : List Operand)
    (lifetime : OperandLifeTime) : Bool :=
  (indexes.all fun i =>
    decide (i < operands.length) && ((operands.getD i default).lifetime == lifetime)) &&
  decide indexes.Nodup

/-! ## checkNoReferenceCycles (ValidateHal.cpp:597-620)

The C++ tracks subgraphs by address (`std::set<const V1_3::Subgraph*>`); the
`main` subgraph and each `referenced[i]` are pairwise distinct objects, so a
subgraph on the path is identified by `Option Nat`: `Option.none` for `main`,
`some i` for `referenced[i]`. -/

/-- The subgraph object a path node identifies. -/
def getSubgraph (m : Model13) : Option Nat → Subgraph
  | Option.none => m.main
  | some i => m.referenced.getD i default

/-- The `location.offset` fields of the SUBGRAPH-lifetime operands of a
subgraph, in operand order (the loop of ValidateHal.cpp:605-612). -/
def subgraphRefs (sg : Subgraph) : List Nat :=
  sg.operands.filterMap fun o =>
    if o.lifetime = OperandLifeTime.SUBGRAPH then some o.location.offset else Option.none

/-- Result of the reference-cycle walk.  `oob` marks the undefined behaviour
of indexing `model.referenced[refSubgraphIndex]` out of range (the C++ does
not bounds-check there); `fuelOut` marks recursion-depth fuel running out
(shown below never to happen for the fuel used). -/
inductive DfsResult where
  | ok (b : Bool)
  | oob
  | fuelOut
  deriving DecidableEq, Repr

/-- The operand loop of `checkNoReferenceCycles` (ValidateHal.cpp:605-612),
iterating over the SUBGRAPH references of the current subgraph; `recurse`
performs the walk one level down.  The C++ reads `model.referenced[r]` with no
bounds check, so an out-of-range `r` is the `oob` marker. -/
def dfsRefs (m : Model13) (recurse : Nat → List (Option Nat) → DfsResult) :
    List Nat → List (Option Nat) → DfsResult
  | [], _ => .ok true
  | r :: rs, path =>
    if r < m.referenced.length then
      match recurse r path with
      | .ok true => dfsRefs m recurse rs path
      | res => res
    else .oob

/-- `checkNoReferenceCycles(model, subgraph, path)` (ValidateHal.cpp:598-615)
with an explicit recursion-depth fuel.  The C++ `path->insert` on entry plus
`path->erase` on successful exit becomes consing the node onto the path passed
to the recursive calls (insertion only ever happens when the node is absent). -/
def dfsLevel (m : Model13) : Nat → Option Nat → List (Option Nat) → DfsResult
  | 0, _, _ => .fuelOut
  | fuel + 1, gid, path =>
    if gid ∈ path then .ok false
    else
      dfsRefs m (fun r path' => dfsLevel m fuel (some r) path')
        (subgraphRefs (getSubgraph m gid)) (gid :: path)

/-- `checkNoReferenceCycles(model)` (ValidateHal.cpp:617-620): walk from
`main` with an empty path.  Fuel `referenced.length + 2` strictly exceeds the
longest possible duplicate-free path, so it never runs out (proved below). -/
def checkNoReferenceCycles (m : Model13) : DfsResult :=
  dfsLevel m (m.referenced.length + 2) Option.none []

/-- The walk's boolean result as composed into `validateModel` (`oob` is
undefined behaviour in the C++ and `fuelOut` cannot occur; both collapse to
`false` here, which `validateModel`'s conjunction treats as rejection). -/
def checkNoReferenceCyclesB (m : Model13) : Bool :=
  match checkNoReferenceCycles m with
  | .ok b => b
  | _ => false

/-! ## validateModel (ValidateHal.cpp:622-666) -/

/-- `validateModel<T_Model>` for V1_0/V1_1/V1_2 models (ValidateHal.cpp:622-641).
`version` is the `ModelToHalVersion` tag of the instantiation;
`validOperandTypeB` is the matching `validOperandType` overload, and
`validateOp`/`sizeOfData` are the external operator-library helpers. -/
def validateModel (validOperandTypeB : OperandType → Bool) (validateOp : Operation → Int)
    (sizeOfData : Operand → Nat) (version : HalVersion) (model : ModelG) : Bool :=
  if model.operations.length == 0 || model.operands.length == 0 then false
  else
    validateOperands validOperandTypeB sizeOfData model.operands model.operandValues
        model.pools [] (decide (HalVersion.V1_2.ord ≤ version.ord)) &&
      validateOperations validateOp model.operations model.operands &&
      validateModelInputOutputs model.inputIndexes model.operands
        OperandLifeTime.SUBGRAPH_INPUT &&
      validateModelInputOutputs model.outputIndexes model.operands
        OperandLifeTime.SUBGRAPH_OUTPUT &&
      validatePools model.pools version

/-- `validateModel<V1_3::Model>` (ValidateHal.cpp:647-666). -/
def validateModel13 (validateOp : Operation → Int) (sizeOfData : Operand → Nat)
    (model : Model13) : Bool :=
  if model.main.operations.length == 0 || model.main.operands.length == 0 then false
  else
    let validateSubgraph := fun (subgraph : Subgraph) =>
      validateOperands validOperandTypeV1_3 sizeOfData subgraph.operands model.operandValues
          model.pools model.referenced true &&
        validateOperations validateOp subgraph.operations subgraph.operands &&
        validateModelInputOutputs subgraph.inputIndexes subgraph.operands
          OperandLifeTime.SUBGRAPH_INPUT &&
        validateModelInputOutputs subgraph.outputIndexes subgraph.operands
          OperandLifeTime.SUBGRAPH_OUTPUT
    validateSubgraph model.main &&
      (model.referenced.all fun sg => validateSubgraph sg) &&
      validatePools model.pools HalVersion.V1_3 &&
      checkNoReferenceCyclesB model

/-! ## validateRequestArguments (ValidateHal.cpp:671-744) -/

/-- The per-argument body of `validateRequestArguments`
(ValidateHal.cpp:685-741). -/
def validateRequestArgument (poolVerifier : MemoryAccessVerifier) (allowUnspecified : Bool)
    (operand : Operand) (requestArgument : RequestArgument) : Bool :=
  let location := requestArgument.location
  if requestArgument.hasNoValue then
    !(location.poolIndex != 0 || location.offset != 0 || location.length != 0 ||
      requestArgument.dimensions.length != 0)
  else
    poolVerifier.validate location &&
      (let rank := requestArgument.dimensions.length
       if rank == 0 then
         allowUnspecified || operand.dimensions.all fun d => d != 0
       else
         (rank == operand.dimensions.length) &&
           (List.range rank).all fun i =>
             !(requestArgument.dimensions.getD i 0 != operand.dimensions.getD i 0 &&
                 operand.dimensions.getD i 0 != 0) &&
             !(requestArgument.dimensions.getD i 0 == 0 && !allowUnspecified))

/-- `validateRequestArguments` (ValidateHal.cpp:671-744).  The C++ reads
`operands[operandIndexes[idx]]` assuming the model has been validated already
(comment at line 689); the unchecked read is modelled with `getD`. -/
def validateRequestArguments (requestArguments : List RequestArgument)
    (operandIndexes : List Nat) (operands : List Operand)
    (poolVerifier : MemoryAccessVerifier) (allowUnspecified : Bool) : Bool :=
  (requestArguments.length == operandIndexes.length) &&
    (List.zip requestArguments operandIndexes).all fun p =>
      validateRequestArgument poolVerifier allowUnspecified (operands.getD p.2 default) p.1

/-! ## ExecutionPlan::recordTemporaryDef (ExecutionPlan.h:146-150, 200-202) -/

/-- `ExecutionPlan::recordTemporaryDef` (ExecutionPlan.h:146-150).  The
`CompoundBody::mTemporaryToDefiningStep` unordered_map is an association
list; a failing `nnAssert` (the main-model index already present) is
`Option.none`, and a successful call inserts the binding. -/
def recordTemporaryDef (temporaryToDefiningStep : List (Nat × Nat))
    (fromModelIndex stepIndex : Nat) : Option (List (Nat × Nat)) :=
  if (temporaryToDefiningStep.lookup fromModelIndex).isSome then Option.none
  else some ((fromModelIndex, stepIndex) :: temporaryToDefiningStep)

/-- Modelled from the spec: the caller of `recordTemporaryDef` is
`ExecutionPlan.cpp` (not under `src/`).  Per the spec, while building a
compound plan, "whenever a step records a temporary as its output, the plan is
told recordTemporaryDef(mainIndex, stepIndex)"; the whole build is modelled as
folding a list of such `(mainIndex, stepIndex)` calls over the initially empty
map. -/
def recordTemporaryDefs (recordings : List (Nat × Nat)) : Option (List (Nat × Nat)) :=
  recordings.foldlM (fun t r => recordTemporaryDef t r.1 r.2) []

/-! ## The subgraph-reference graph (for reasoning about the DFS walk) -/

/-- One subgraph-reference edge: node `a`'s subgraph contains a SUBGRAPH
operand whose offset `r` is in range, and `b` is the node of `referenced[r]`. -/
def RefStep (m : Model13) (a b : Option Nat) : Prop :=
  ∃ r, r ∈ subgraphRefs (getSubgraph m a) ∧ r < m.referenced.length ∧ b = some r

/-- Reachability along subgraph-reference edges. -/
def RefReaches (m : Model13) : Option Nat → Option Nat → Prop :=
  Relation.ReflTransGen (RefStep m)

/-- A reference cycle reachable from node `g`. -/
def RefCycleFrom (m : Model13) (g : Option Nat) : Prop :=
  ∃ v, RefReaches m g v ∧ Relation.TransGen (RefStep m) v v

/-- A reference cycle reachable from `main`. -/
def HasRefCycle (m : Model13) : Prop :=
  RefCycleFrom m Option.none

/-- A node names an existing subgraph (`main`, or an in-range `referenced`
index). -/
def ValidNode (m : Model13) : Option Nat → Prop
  | Option.none => True
  | some i => i < m.referenced.length

/-- Every SUBGRAPH operand of every subgraph of the model has an in-range
offset — the property `validateOperands` enforces (ValidateHal.cpp:390-394)
for `main` and every referenced subgraph before the walk runs. -/
def AllRefsInRange (m : Model13) : Prop :=
  ∀ sg ∈ m.main :: m.referenced, ∀ r ∈ subgraphRefs sg, r < m.referenced.length

instance (m : Model13) : Decidable (AllRefsInRange m) :=
  inferInstanceAs (Decidable (∀ sg ∈ m.main :: m.referenced,
    ∀ r ∈ subgraphRefs sg, r < m.referenced.length))

/-- The DFS path invariant: the path lists the ancestors of the current node,
each linked by a reference edge to the one consed onto it, ending at `main`. -/
def IsAncPath (m : Model13) : List (Option Nat) → Prop
  | [] => False
  | [a] => a = Option.none
  | a :: b :: t => RefStep m b a ∧ IsAncPath m (b :: t)

/-- The acceptance condition that claim C6 states for
`validateOperandExtraParams`: channelQuant exactly for per-channel types (with
the dimension/scales side conditions), extension-or-none for extension types,
and `none` for every other type. -/
def extraParamsClaimedOk (o : Operand) : Prop :=
  (o.type = OperandType.TENSOR_QUANT8_SYMM_PER_CHANNEL ∧
    ∃ channelDim scales, o.extraParams = ExtraParams.channelQuant channelDim scales ∧
      channelDim < o.dimensions.length ∧
      scales.length = o.dimensions.getD channelDim 0 ∧
      o.dimensions.getD channelDim 0 ≠ 0 ∧
      ∀ s ∈ scales, (0 : ℚ) < s) ∨
  (isExtensionOperandType o.type = true ∧
    (o.extraParams = ExtraParams.extensionData ∨ o.extraParams = ExtraParams.none)) ∨
  (o.type ≠ OperandType.TENSOR_QUANT8_SYMM_PER_CHANNEL ∧
    isExtensionOperandType o.type = false ∧ o.extraParams = ExtraParams.none)

/-- The acceptance condition of `validateOperandExtraParams` as amended:
same as the claim except that `FLOAT16`, `OEM` and `TENSOR_OEM_BYTE` operands
are accepted with any extraParams (the code performs no extraParams validation
for them). -/
def extraParamsAmendedOk (o : Operand) : Prop :=
  match o.type with
  | .FLOAT16 | .OEM | .TENSOR_OEM_BYTE => True
  | .TENSOR_QUANT8_SYMM_PER_CHANNEL =>
      ∃ channelDim scales, o.extraParams = ExtraParams.channelQuant channelDim scales ∧
        channelDim < o.dimensions.length ∧
        scales.length = o.dimensions.getD channelDim 0 ∧
        o.dimensions.getD channelDim 0 ≠ 0 ∧
        ∀ s ∈ scales, (0 : ℚ) < s
  | .EXTENSION => o.extraParams = ExtraParams.extensionData ∨ o.extraParams = ExtraParams.none
  | _ => o.extraParams = ExtraParams.none

end AndroidNN

namespace AndroidNN

end AndroidNN

namespace AndroidNN

/-- C2: `MemoryAccessVerifier::validate` accepts exactly the in-range
locations, with the `offset + length` sum computed exactly (64-bit, no wrap);
and a sum that would fit after 32-bit wrap-around is still rejected. -/
theorem claim_C2_memory_access_verifier :
    (∀ (v : MemoryAccessVerifier) (loc : DataLocation),
      v.validate loc = true ↔
        loc.poolIndex < v.mPoolSizes.length ∧
          loc.offset + loc.length ≤ v.mPoolSizes.getD loc.poolIndex 0) ∧
    (∀ off len size : Nat, off < 2 ^ 32 → len < 2 ^ 32 →
      (off + len) % 2 ^ 32 ≤ size → size < off + len →
      MemoryAccessVerifier.validate ⟨[size]⟩ ⟨0, off, len⟩ = false ∧
        MemoryAccessVerifier.validateWrap32 ⟨[size]⟩ ⟨0, off, len⟩ = true) := by
  constructor
  · intro v loc
    unfold MemoryAccessVerifier.validate
    split
    · rename_i h
      exact iff_of_false (by simp) (by omega)
    · rename_i h
      split
      · rename_i h2
        exact iff_of_false (by simp) (by omega)
      · rename_i h2
        exact iff_of_true rfl (by omega)
  · intro off len size hoff hlen hwrap hreal
    constructor
    · unfold MemoryAccessVerifier.validate
      rw [if_neg (by simp), if_pos (by simpa using hreal)]
    · unfold MemoryAccessVerifier.validateWrap32
      rw [if_neg (by simp), if_neg (by simpa using hwrap)]

/-- Witness for C2 at a concrete input: `offset = 2^32 - 1`, `length = 1`
wraps to 0 in 32 bits yet is rejected against a pool of size 10. -/
theorem claim_C2_witness :
    MemoryAccessVerifier.validate ⟨[10]⟩ ⟨0, 2 ^ 32 - 1, 1⟩ = false ∧
      MemoryAccessVerifier.validateWrap32 ⟨[10]⟩ ⟨0, 2 ^ 32 - 1, 1⟩ = true :=
  claim_C2_memory_access_verifier.2 (2 ^ 32 - 1) 1 10 (by norm_num) (by norm_num)
    (by norm_num) (by norm_num)

/-- C8: `validatePool` accepts a `hidl_memory` pool exactly when its name is
`ashmem`/`mmap_fd`, or the HAL version is at least V1_2 and the name is
`hardware_buffer_blob`/`hardware_buffer`, and the handle is non-null; a V1_3
token pool is accepted exactly when the token is strictly positive. -/
theorem claim_C8_validate_pool :
    (∀ (pool : HidlMemory) (ver : HalVersion),
      validatePool pool ver = true ↔
        ((pool.name = "ashmem" ∨ pool.name = "mmap_fd") ∨
          (HalVersion.V1_2.ord ≤ ver.ord ∧
            (pool.name = "hardware_buffer_blob" ∨ pool.name = "hardware_buffer"))) ∧
          pool.nullHandle = false) ∧
    (∀ (t : Nat) (ver : HalVersion),
      validatePoolMP (MemoryPool.token t) ver = true ↔ 0 < t) ∧
    (∀ (mem : HidlMemory) (ver : HalVersion),
      validatePoolMP (MemoryPool.hidlMemory mem) ver = validatePool mem ver) := by
  refine ⟨?_, ?_, ?_⟩
  · intro pool ver
    unfold validatePool
    split
    · rename_i h
      refine iff_of_false (by simp) ?_
      rintro ⟨hname, -⟩
      obtain ⟨ha, hm, hv⟩ := h
      rcases hname with (h1 | h1) | ⟨h2, h3⟩
      · exact ha h1
      · exact hm h1
      · rcases hv with hv | hv
        · exact absurd h2 (by omega)
        · rcases h3 with h3 | h3
          · exact hv.1 h3
          · exact hv.2 h3
    · rename_i h
      push_neg at h
      split
      · rename_i hnull
        refine iff_of_false (by simp) ?_
        rintro ⟨-, hn⟩
        rw [hnull] at hn
        exact absurd hn (by simp)
      · rename_i hnull
        refine iff_of_true rfl ⟨?_, by simpa using hnull⟩
        by_cases ha : pool.name = "ashmem"
        · exact Or.inl (Or.inl ha)
        by_cases hm : pool.name = "mmap_fd"
        · exact Or.inl (Or.inr hm)
        obtain ⟨hv, hn⟩ := h ha hm
        refine Or.inr ⟨hv, ?_⟩
        by_cases hb : pool.name = "hardware_buffer_blob"
        · exact Or.inl hb
        · exact Or.inr (hn hb)
  · intro t ver
    simp [validatePoolMP]
  · intro mem ver
    rfl

end AndroidNN

namespace AndroidNN

/-- Counterexample to C5 as stated: a TENSOR_QUANT8_ASYMM operand with NaN
scale is accepted by `validateOperands` (the rejection test `scale <= 0.f` of
ValidateHal.cpp:264 is false on NaN), yet NaN is not strictly positive, so an
operand outside the claimed scale table does not make validation return
false. -/
theorem claim_C5_counterexample :
    validateOperands validOperandTypeV1_3 (fun _ => 0)
        [⟨OperandType.TENSOR_QUANT8_ASYMM, [1], FloatVal.nan, 0,
          OperandLifeTime.SUBGRAPH_INPUT, ⟨0, 0, 0⟩, ExtraParams.none⟩] [] [] []
        true = true ∧
      ¬ scaleSpecOk
        ⟨OperandType.TENSOR_QUANT8_ASYMM, [1], FloatVal.nan, 0,
          OperandLifeTime.SUBGRAPH_INPUT, ⟨0, 0, 0⟩, ExtraParams.none⟩ := by
  refine ⟨by decide, ?_⟩
  intro hpos
  simp [scaleSpecOk, FloatVal.IsPos] at hpos

/-- C5 amended: any operand list accepted by `validateOperands` satisfies the
zero-point table and the NaN-amended scale table: scale exactly 0 for
float/bool/int/uint/subgraph/float-tensor/bool-tensor/per-channel types,
nonnegative or NaN for TENSOR_INT32, strictly positive or NaN for
non-per-channel quantized tensors; contrapositively, any operand outside
these (amended) ranges makes validation return false. -/
theorem claim_C5_scale_zero_point_amended
    (validOperandTypeB : OperandType → Bool) (sizeOfData : Operand → Nat)
    (operands : List Operand) (operandValues : List Nat) (pools : List HidlMemory)
    (subgraphs : List Subgraph) (allowUnspecifiedRank : Bool)
    (h : validateOperands validOperandTypeB sizeOfData operands operandValues pools
      subgraphs allowUnspecifiedRank = true) :
    ∀ o ∈ operands, scaleAmendedOk o ∧ zeroPointSpecOk o := by
  intro o ho
  have hall := (List.all_eq_true.mp h) o ho
  simp only [Bool.and_eq_true] at hall
  obtain ⟨⟨⟨⟨⟨⟨⟨-, -⟩, hscale⟩, hzp⟩, -⟩, -⟩, -⟩, -⟩ := hall
  obtain ⟨t, dims, sc, zp, lt, loc, ep⟩ := o
  constructor
  · cases t <;> cases sc <;>
      simp_all [checkOperandScale, scaleAmendedOk, FloatVal.feq, FloatVal.flt,
        FloatVal.fle, FloatVal.IsZero, FloatVal.IsNonneg, FloatVal.IsPos,
        isExtensionOperandType, not_lt, not_le]
  · cases t <;>
      simp_all [checkOperandZeroPoint, zeroPointSpecOk, isExtensionOperandType]

/-- Witness for C5 (amended): a concrete accepted two-operand list (one
TENSOR_FLOAT32 with zero scale, one TENSOR_QUANT8_ASYMM with NaN scale),
whose NaN-scale operand then satisfies the amended table. -/
theorem claim_C5_witness :
    validateOperands validOperandTypeV1_3 (fun _ => 0)
        [⟨OperandType.TENSOR_FLOAT32, [2, 2], 0, 0, OperandLifeTime.SUBGRAPH_INPUT,
            ⟨0, 0, 0⟩, ExtraParams.none⟩,
          ⟨OperandType.TENSOR_QUANT8_ASYMM, [1], FloatVal.nan, 0,
            OperandLifeTime.SUBGRAPH_INPUT, ⟨0, 0, 0⟩, ExtraParams.none⟩] [] [] []
        true = true ∧
      scaleAmendedOk
        ⟨OperandType.TENSOR_QUANT8_ASYMM, [1], FloatVal.nan, 0,
          OperandLifeTime.SUBGRAPH_INPUT, ⟨0, 0, 0⟩, ExtraParams.none⟩ := by
  have hacc : validateOperands validOperandTypeV1_3 (fun _ => 0)
      [⟨OperandType.TENSOR_FLOAT32, [2, 2], 0, 0, OperandLifeTime.SUBGRAPH_INPUT,
          ⟨0, 0, 0⟩, ExtraParams.none⟩,
        ⟨OperandType.TENSOR_QUANT8_ASYMM, [1], FloatVal.nan, 0,
          OperandLifeTime.SUBGRAPH_INPUT, ⟨0, 0, 0⟩, ExtraParams.none⟩] [] [] []
      true = true := by decide
  refine ⟨hacc, ?_⟩
  exact (claim_C5_scale_zero_point_amended validOperandTypeV1_3 (fun _ => 0) _ [] [] []
    true hacc _ (by simp)).1

/-- Counterexample to C6 as stated: a `FLOAT16` operand carrying `channelQuant`
extraParams is accepted by `validateOperandExtraParams` (the require-`none`
switch omits `FLOAT16`, so it falls into the unvalidated default case), yet
the claim's condition demands `none` for it. -/
theorem claim_C6_counterexample :
    validateOperandExtraParams
        ⟨OperandType.FLOAT16, [], 0, 0, OperandLifeTime.NO_VALUE, ⟨0, 0, 0⟩,
          ExtraParams.channelQuant 0 []⟩ = true ∧
      ¬ extraParamsClaimedOk
        ⟨OperandType.FLOAT16, [], 0, 0, OperandLifeTime.NO_VALUE, ⟨0, 0, 0⟩,
          ExtraParams.channelQuant 0 []⟩ := by
  refine ⟨rfl, ?_⟩
  rintro (⟨htype, -⟩ | ⟨hext, -⟩ | ⟨-, -, hnone⟩)
  · exact absurd htype (by decide)
  · exact absurd hext (by decide)
  · exact absurd hnone (by decide)

/-- C6 amended: `validateOperandExtraParams` accepts exactly the channelQuant
conditions for per-channel types, extension-or-none for extension types, `none`
for the fourteen types in the require-`none` switch, and anything at all for
`FLOAT16`, `OEM` and `TENSOR_OEM_BYTE`. -/
theorem claim_C6_extra_params_amended (o : Operand) :
    validateOperandExtraParams o = true ↔ extraParamsAmendedOk o := by
  obtain ⟨t, dims, sc, zp, lt, loc, ep⟩ := o
  cases t <;> cases ep <;>
    simp_all [validateOperandExtraParams, extraParamsAmendedOk, isExtensionOperandType,
      List.all_eq_true]
  case TENSOR_QUANT8_SYMM_PER_CHANNEL.channelQuant channelDim scales =>
    constructor
    · intro h
      exact ⟨channelDim, scales, ⟨rfl, rfl⟩, by tauto⟩
    · rintro ⟨cd, ss, ⟨h1, h2⟩, h⟩
      subst h1
      subst h2
      tauto

end AndroidNN

namespace AndroidNN

/-- Effect of `markOutputs` on the written set: indexes already written stay
written and are not re-written by this output list; fresh indexes are written
at most once and end up in the set exactly when written once. -/
theorem markOutputs_spec (operands : List Operand) (outs : List Nat)
    (w w' : List Nat) (h : markOutputs operands outs w = some w') (i : Nat) :
    (i ∈ w → outs.count i = 0 ∧ i ∈ w') ∧
      (i ∉ w → outs.count i ≤ 1 ∧ (i ∈ w' ↔ outs.count i = 1)) := by
  induction outs generalizing w with
  | nil =>
    simp only [markOutputs, Option.some.injEq] at h
    subst h
    exact ⟨fun hw => ⟨by simp, hw⟩, fun hw => ⟨by simp, by simp [hw]⟩⟩
  | cons j rest ih =>
    simp only [markOutputs] at h
    split at h
    · exact absurd h (by simp)
    · split at h
      · exact absurd h (by simp)
      · rename_i hlife hjw
        obtain ⟨ihin, ihout⟩ := ih (j :: w) h
        by_cases hij : i = j
        · subst hij
          constructor
          · intro hw
            exact absurd hw hjw
          · intro hw
            obtain ⟨hc0, hw'⟩ := ihin (by simp)
            refine ⟨?_, ?_⟩
            · simp [List.count_cons, hc0]
            · simp [List.count_cons, hc0, hw']
        · have hji : ¬(j = i) := fun e => hij e.symm
          constructor
          · intro hw
            obtain ⟨hc0, hw'⟩ := ihin (by simp [hw])
            refine ⟨?_, hw'⟩
            simp [List.count_cons, hc0, hji]
          · intro hw
            have hw2 : i ∉ j :: w := by simp [hij, hw]
            obtain ⟨hc1, hciff⟩ := ihout hw2
            refine ⟨?_, ?_⟩
            · simp [List.count_cons, hji]
              omega
            · simpa [List.count_cons, hji] using hciff

/-- `writeCount` unfolding over a cons. -/
theorem writeCount_cons (op : Operation) (rest : List Operation) (i : Nat) :
    writeCount (op :: rest) i = op.outputs.count i + writeCount rest i := by
  simp [writeCount]

/-- Effect of the whole per-operation scan on the written set: on success,
indexes already written are never written again, and a fresh index ends up in
the final set exactly when the operation list writes it exactly once (and it
is never written more than once). -/
theorem scanOperations_spec (validateOp : Operation → Int) (operands : List Operand)
    (ops : List Operation) (w w' : List Nat)
    (h : scanOperations validateOp operands ops w = some w') (i : Nat) :
    (i ∈ w → writeCount ops i = 0 ∧ i ∈ w') ∧
      (i ∉ w → writeCount ops i ≤ 1 ∧ (i ∈ w' ↔ writeCount ops i = 1)) := by
  induction ops generalizing w with
  | nil =>
    simp only [scanOperations, Option.some.injEq] at h
    subst h
    exact ⟨fun hw => ⟨by simp [writeCount], hw⟩, fun hw => ⟨by simp [writeCount], by
      simp [writeCount, hw]⟩⟩
  | cons op rest ih =>
    simp only [scanOperations] at h
    split at h
    · exact absurd h (by simp)
    · cases hm : markOutputs operands op.outputs w with
      | none =>
        rw [hm] at h
        exact absurd h (by simp)
      | some w1 =>
        rw [hm] at h
        obtain ⟨hmin, hmout⟩ := markOutputs_spec operands op.outputs w w1 hm i
        obtain ⟨ihin, ihout⟩ := ih w1 h
        rw [writeCount_cons]
        constructor
        · intro hw
          obtain ⟨hc0, hw1⟩ := hmin hw
          obtain ⟨hr0, hw'⟩ := ihin hw1
          exact ⟨by omega, hw'⟩
        · intro hw
          obtain ⟨hc1, hciff⟩ := hmout hw
          by_cases hw1 : i ∈ w1
          · obtain ⟨hr0, hw'⟩ := ihin hw1
            have hc : op.outputs.count i = 1 := hciff.mp hw1
            exact ⟨by omega, ⟨fun _ => by omega, fun _ => hw'⟩⟩
          · obtain ⟨hr1, hriff⟩ := ihout hw1
            have hcne : op.outputs.count i ≠ 1 := fun hh => hw1 (hciff.mpr hh)
            have hc0 : op.outputs.count i = 0 := by omega
            rw [hc0]
            exact ⟨by omega, by simpa using hriff⟩

/-- C1: any operation list accepted by `validateOperations` writes each
in-range operand index at most once, and writes it exactly once whenever the
operand's lifetime is TEMPORARY_VARIABLE or SUBGRAPH_OUTPUT; contrapositively,
a double write or an unwritten temporary / subgraph output makes
`validateOperations` return false. -/
theorem claim_C1_write_once (validateOp : Operation → Int) (operations : List Operation)
    (operands : List Operand)
    (h : validateOperations validateOp operations operands = true) :
    ∀ i < operands.length,
      writeCount operations i ≤ 1 ∧
        (((operands.getD i default).lifetime = OperandLifeTime.TEMPORARY_VARIABLE ∨
            (operands.getD i default).lifetime = OperandLifeTime.SUBGRAPH_OUTPUT) →
          writeCount operations i = 1) := by
  intro i hi
  unfold validateOperations at h
  cases hs : scanOperations validateOp operands operations [] with
  | none =>
    rw [hs] at h
    exact absurd h (by simp)
  | some w' =>
    rw [hs] at h
    obtain ⟨hle, hiff⟩ :=
      (scanOperations_spec validateOp operands operations [] w' hs i).2 (by simp)
    refine ⟨hle, fun hlt => ?_⟩
    have hmem := (List.all_eq_true.mp h) i (List.mem_range.mpr hi)
    simp only [Bool.or_eq_true, decide_eq_true_eq, Bool.and_eq_true, bne_iff_ne] at hmem
    rcases hmem with hmem | ⟨h1, h2⟩
    · exact hiff.mp hmem
    · rcases hlt with hlt | hlt
      · exact absurd hlt h1
      · exact absurd hlt h2

/-- Witness for C1: a minimal accepted subgraph (two inputs, one ADD-like
operation writing the single SUBGRAPH_OUTPUT), to which the theorem applies
at operand index 2. -/
theorem claim_C1_witness :
    validateOperations (fun _ => 0) [⟨0, [0, 1], [2]⟩]
        [⟨OperandType.TENSOR_FLOAT32, [2, 2], 0, 0, OperandLifeTime.SUBGRAPH_INPUT,
            ⟨0, 0, 0⟩, ExtraParams.none⟩,
          ⟨OperandType.TENSOR_FLOAT32, [2, 2], 0, 0, OperandLifeTime.SUBGRAPH_INPUT,
            ⟨0, 0, 0⟩, ExtraParams.none⟩,
          ⟨OperandType.TENSOR_FLOAT32, [2, 2], 0, 0, OperandLifeTime.SUBGRAPH_OUTPUT,
            ⟨0, 0, 0⟩, ExtraParams.none⟩] = true ∧
      writeCount [⟨0, [0, 1], [2]⟩] 2 = 1 := by
  have hacc : validateOperations (fun _ => 0) [⟨0, [0, 1], [2]⟩]
      [⟨OperandType.TENSOR_FLOAT32, [2, 2], 0, 0, OperandLifeTime.SUBGRAPH_INPUT,
          ⟨0, 0, 0⟩, ExtraParams.none⟩,
        ⟨OperandType.TENSOR_FLOAT32, [2, 2], 0, 0, OperandLifeTime.SUBGRAPH_INPUT,
          ⟨0, 0, 0⟩, ExtraParams.none⟩,
        ⟨OperandType.TENSOR_FLOAT32, [2, 2], 0, 0, OperandLifeTime.SUBGRAPH_OUTPUT,
          ⟨0, 0, 0⟩, ExtraParams.none⟩] = true := by decide
  refine ⟨hacc, ?_⟩
  exact (claim_C1_write_once (fun _ => 0) _ _ hacc 2 (by decide)).2 (by decide)

/-- C10: a model with an empty operation list or an empty operand list (for
V1_3, in its main subgraph) is rejected by `validateModel` at every HAL
version, before any per-operand or per-operation validation runs. -/
theorem claim_C10_empty_model_rejected :
    (∀ (validOperandTypeB : OperandType → Bool) (validateOp : Operation → Int)
        (sizeOfData : Operand → Nat) (version : HalVersion) (model : ModelG),
      model.operations = [] ∨ model.operands = [] →
      validateModel validOperandTypeB validateOp sizeOfData version model = false) ∧
    (∀ (validateOp : Operation → Int) (sizeOfData : Operand → Nat) (model : Model13),
      model.main.operations = [] ∨ model.main.operands = [] →
      validateModel13 validateOp sizeOfData model = false) := by
  constructor
  · intro vt vop sz version model h
    rcases h with h | h <;> simp [validateModel, h]
  · intro vop sz model h
    rcases h with h | h <;> simp [validateModel13, h]

/-- Witness for C10: the V1_3 empty model is rejected. -/
theorem claim_C10_witness :
    validateModel13 (fun _ => 0) (fun _ => 0) ⟨⟨[], [], [], []⟩, [], [], [], false⟩ = false :=
  claim_C10_empty_model_rejected.2 (fun _ => 0) (fun _ => 0) _ (Or.inl rfl)

end AndroidNN

namespace AndroidNN

/-- Folding `recordTemporaryDef` calls with pairwise-distinct main indexes
over any map that does not yet bind them: every `nnAssert` holds (no call
fails), every recording ends up bound, and existing bindings persist. -/
theorem recordTemporaryDef_fold_spec (recordings : List (Nat × Nat)) :
    ∀ init : List (Nat × Nat), (recordings.map Prod.fst).Nodup →
    (∀ p ∈ recordings, init.lookup p.1 = Option.none) →
    ∃ t, recordings.foldlM (fun t r => recordTemporaryDef t r.1 r.2) init = some t ∧
      (∀ p ∈ recordings, t.lookup p.1 = some p.2) ∧
      (∀ i v, init.lookup i = some v → t.lookup i = some v) := by
  induction recordings with
  | nil =>
    intro init _ _
    exact ⟨init, rfl, by simp, fun i v h => h⟩
  | cons r rest ih =>
    intro init hnd hfresh
    obtain ⟨i, s⟩ := r
    have hfresh0 : init.lookup i = Option.none := hfresh (i, s) (by simp)
    have hstep : recordTemporaryDef init i s = some ((i, s) :: init) := by
      unfold recordTemporaryDef
      rw [hfresh0]
      rfl
    simp only [List.map_cons, List.nodup_cons] at hnd
    obtain ⟨hni, hndrest⟩ := hnd
    have hfresh' : ∀ p ∈ rest, ((i, s) :: init).lookup p.1 = Option.none := by
      intro p hp
      have hne : p.1 ≠ i := by
        intro he
        exact hni (he ▸ List.mem_map_of_mem Prod.fst hp)
      have hbe : (p.1 == i) = false := by simpa using hne
      simp only [List.lookup, hbe]
      exact hfresh p (List.mem_cons_of_mem _ hp)
    obtain ⟨t, hfold, hbind, hpres⟩ := ih ((i, s) :: init) hndrest hfresh'
    refine ⟨t, ?_, ?_, ?_⟩
    · rw [List.foldlM_cons, hstep]
      simpa using hfold
    · intro p hp
      rcases List.mem_cons.mp hp with he | hp'
      · subst he
        apply hpres
        simp [List.lookup]
      · exact hbind p hp'
    · intro j v hj
      apply hpres
      have hji : j ≠ i := by
        intro he
        rw [he, hfresh0] at hj
        cases hj
      have hbe : (j == i) = false := by simpa using hji
      simp only [List.lookup, hbe]
      exact hj

/-- C9: building a compound plan, modelled as a sequence of
`recordTemporaryDef(mainIndex, stepIndex)` calls with pairwise-distinct main
indexes (the spec's exclusive-producer discipline), never trips the
`nnAssert` that the `mTemporaryToDefiningStep` map does not yet contain the
index, and afterwards the map binds each recorded main index to its recording
step's index. -/
theorem claim_C9_record_temporary_def (recordings : List (Nat × Nat))
    (h : (recordings.map Prod.fst).Nodup) :
    ∃ t, recordTemporaryDefs recordings = some t ∧
      ∀ p ∈ recordings, t.lookup p.1 = some p.2 := by
  obtain ⟨t, h1, h2, -⟩ := recordTemporaryDef_fold_spec recordings [] h (by simp)
  exact ⟨t, h1, h2⟩

/-- Witness for C9: two temporaries recorded by steps 0 and 1. -/
theorem claim_C9_witness :
    ∃ t, recordTemporaryDefs [(4, 0), (7, 1)] = some t ∧
      ∀ p ∈ [(4, 0), (7, 1)], t.lookup p.1 = some p.2 :=
  claim_C9_record_temporary_def [(4, 0), (7, 1)] (by decide)

end AndroidNN

namespace AndroidNN

/-- C7: any argument list accepted by `validateRequestArguments` has, for
every argument that has a value and supplies a non-empty dimensions list, a
supplied rank equal to the model operand's rank, supplied dimensions equal to
the operand's wherever the operand's dimension is non-zero, and (when
unspecified dimensions are not allowed) no supplied dimension equal to zero;
contrapositively, a rank or dimension mismatch makes validation return false. -/
theorem claim_C7_request_dimension_checks (requestArguments : List RequestArgument)
    (operandIndexes : List Nat) (operands : List Operand)
    (poolVerifier : MemoryAccessVerifier) (allowUnspecified : Bool)
    (h : validateRequestArguments requestArguments operandIndexes operands poolVerifier
      allowUnspecified = true) :
    ∀ k < requestArguments.length,
      (requestArguments.getD k default).hasNoValue = false →
      (requestArguments.getD k default).dimensions ≠ [] →
      (requestArguments.getD k default).dimensions.length =
          (operands.getD (operandIndexes.getD k 0) default).dimensions.length ∧
        ∀ j < (requestArguments.getD k default).dimensions.length,
          ((operands.getD (operandIndexes.getD k 0) default).dimensions.getD j 0 ≠ 0 →
            (requestArguments.getD k default).dimensions.getD j 0 =
              (operands.getD (operandIndexes.getD k 0) default).dimensions.getD j 0) ∧
          (allowUnspecified = false →
            (requestArguments.getD k default).dimensions.getD j 0 ≠ 0) := by
  intro k hk hnv hdims
  unfold validateRequestArguments at h
  simp only [Bool.and_eq_true, beq_iff_eq] at h
  obtain ⟨hlen, hall⟩ := h
  have hk2 : k < operandIndexes.length := by omega
  have hkz : k < (List.zip requestArguments operandIndexes).length := by
    rw [List.length_zip]
    omega
  have hv := List.all_eq_true.mp hall _ (List.getElem_mem hkz)
  rw [List.getElem_zip] at hv
  rw [List.getD_eq_getElem requestArguments default hk] at hnv hdims ⊢
  rw [List.getD_eq_getElem operandIndexes 0 hk2]
  simp only [validateRequestArgument, hnv, Bool.false_eq_true, if_false,
    Bool.and_eq_true] at hv
  obtain ⟨-, hv2⟩ := hv
  have hne0 : (requestArguments[k].dimensions.length == 0) = false := by
    simp only [beq_eq_false_iff_ne, ne_eq]
    intro hh
    exact hdims (List.length_eq_zero.mp hh)
  rw [if_neg (by simp [hne0])] at hv2
  simp only [Bool.and_eq_true, beq_iff_eq, List.all_eq_true, List.mem_range] at hv2
  obtain ⟨hrank, hj⟩ := hv2
  refine ⟨hrank, ?_⟩
  intro j hjlt
  have hjv := hj j hjlt
  simp only [Bool.and_eq_true, Bool.not_eq_true', Bool.and_eq_false_iff,
    bne_eq_false_iff_eq, bne, beq_eq_false_iff_ne, ne_eq, Bool.not_eq_false'] at hjv
  obtain ⟨hj1, hj2⟩ := hjv
  constructor
  · intro hnz
    rcases hj1 with h1 | h1
    · exact beq_iff_eq.mp h1
    · exact absurd (beq_iff_eq.mp h1) hnz
  · intro hallow
    rcases hj2 with h2 | h2
    · simpa using h2
    · rw [hallow] at h2
      exact absurd h2 (by simp)

end AndroidNN

namespace AndroidNN

/-- Every node on an ancestor path is reachable from the root (`main`). -/
theorem isAncPath_reaches_root (m : Model13) :
    ∀ l : List (Option Nat), IsAncPath m l → ∀ g ∈ l, RefReaches m Option.none g := by
  intro l
  induction l with
  | nil =>
    intro h
    exact absurd h (by simp [IsAncPath])
  | cons a t ih =>
    intro h g hg
    cases t with
    | nil =>
      simp only [IsAncPath] at h
      subst h
      rcases List.mem_singleton.mp hg with rfl
      exact Relation.ReflTransGen.refl
    | cons b t' =>
      obtain ⟨hstep, hanc⟩ := h
      rcases List.mem_cons.mp hg with rfl | hg'
      · exact Relation.ReflTransGen.tail (ih hanc b (by simp)) hstep
      · exact ih hanc g hg'

/-- Every node on an ancestor path reaches the path's head. -/
theorem isAncPath_reaches_head (m : Model13) :
    ∀ (l : List (Option Nat)) (a : Option Nat), IsAncPath m (a :: l) →
      ∀ g ∈ a :: l, RefReaches m g a := by
  intro l
  induction l with
  | nil =>
    intro a _ g hg
    rcases List.mem_singleton.mp hg with rfl
    exact Relation.ReflTransGen.refl
  | cons b t ih =>
    intro a h g hg
    obtain ⟨hstep, hanc⟩ := h
    rcases List.mem_cons.mp hg with rfl | hg'
    · exact Relation.ReflTransGen.refl
    · exact Relation.ReflTransGen.tail (ih b hanc g hg') hstep

/-- Walking into a node already on the ancestor path exhibits a reference
cycle reachable from `main`. -/
theorem isAncPath_cycle (m : Model13) (gid : Option Nat) (path : List (Option Nat))
    (h : IsAncPath m (gid :: path)) (hmem : gid ∈ path) : HasRefCycle m := by
  cases path with
  | nil => exact absurd hmem (by simp)
  | cons b t =>
    obtain ⟨hstep, hanc⟩ := h
    refine ⟨gid, ?_, ?_⟩
    · exact isAncPath_reaches_root m (b :: t) hanc gid hmem
    · exact Relation.TransGen.tail' (isAncPath_reaches_head m t b hanc gid hmem) hstep

/-- A reachable cycle decomposes into a first edge followed by a reachable
cycle from the edge's target. -/
theorem refCycleFrom_step (m : Model13) (g : Option Nat) (h : RefCycleFrom m g) :
    ∃ c, RefStep m g c ∧ RefCycleFrom m c := by
  obtain ⟨v, hreach, hcyc⟩ := h
  rcases Relation.ReflTransGen.cases_head hreach with rfl | ⟨c, hgc, hcv⟩
  · obtain ⟨c, hgc, hcv⟩ := (Relation.TransGen.head'_iff).mp hcyc
    exact ⟨c, hgc, ⟨g, hcv, hcyc⟩⟩
  · exact ⟨c, hgc, ⟨v, hcv, hcyc⟩⟩

end AndroidNN

namespace AndroidNN

/-- Soundness of the walk: under the ancestor-path invariant, a `false`
result means a reference cycle is reachable from `main`. -/
theorem dfsLevel_false_sound (m : Model13) :
    ∀ (fuel : Nat) (gid : Option Nat) (path : List (Option Nat)),
      IsAncPath m (gid :: path) → dfsLevel m fuel gid path = .ok false →
      HasRefCycle m := by
  intro fuel
  induction fuel with
  | zero =>
    intro gid path _ h
    exact absurd h (by simp [dfsLevel])
  | succ fuel ih =>
    intro gid path hanc h
    simp only [dfsLevel] at h
    by_cases hmem : gid ∈ path
    · exact isAncPath_cycle m gid path hanc hmem
    · rw [if_neg hmem] at h
      revert h
      suffices haux : ∀ refs, (∀ r ∈ refs, r ∈ subgraphRefs (getSubgraph m gid)) →
          dfsRefs m (fun r p => dfsLevel m fuel (some r) p) refs (gid :: path) = .ok false →
          HasRefCycle m by
        exact haux _ (fun r hr => hr)
      intro refs
      induction refs with
      | nil =>
        intro _ hh
        exact absurd hh (by simp [dfsRefs])
      | cons r rs ihr =>
        intro hsub hh
        simp only [dfsRefs] at hh
        split at hh
        · rename_i hrN
          cases hres : dfsLevel m fuel (some r) (gid :: path) with
          | ok b =>
            cases b with
            | true =>
              rw [hres] at hh
              exact ihr (fun x hx => hsub x (List.mem_cons_of_mem _ hx)) hh
            | false =>
              have hanc' : IsAncPath m (some r :: gid :: path) :=
                ⟨⟨r, hsub r (by simp), hrN, rfl⟩, hanc⟩
              exact ih (some r) (gid :: path) hanc' hres
          | oob =>
            rw [hres] at hh
            exact absurd hh (by simp)
          | fuelOut =>
            rw [hres] at hh
            exact absurd hh (by simp)
        · exact absurd hh (by simp)

/-- Cycle detection: a reference cycle reachable from the current node keeps
the walk from returning `true`. -/
theorem dfsLevel_cycle_not_true (m : Model13) :
    ∀ (fuel : Nat) (gid : Option Nat) (path : List (Option Nat)),
      RefCycleFrom m gid → dfsLevel m fuel gid path ≠ .ok true := by
  intro fuel
  induction fuel with
  | zero =>
    intro gid path _
    simp [dfsLevel]
  | succ fuel ih =>
    intro gid path hcyc
    simp only [dfsLevel]
    by_cases hmem : gid ∈ path
    · simp [hmem]
    · rw [if_neg hmem]
      obtain ⟨c, hstep, hcyc'⟩ := refCycleFrom_step m gid hcyc
      obtain ⟨r, hrmem, hrN, rfl⟩ := hstep
      revert hrmem
      suffices haux : ∀ refs path', r ∈ refs →
          dfsRefs m (fun r p => dfsLevel m fuel (some r) p) refs path' ≠ .ok true by
        exact fun hrmem => haux _ _ hrmem
      intro refs
      induction refs with
      | nil =>
        intro _ h
        exact absurd h (by simp)
      | cons x rs ihr =>
        intro path' hr
        simp only [dfsRefs]
        split
        · rename_i hxN
          cases hres : dfsLevel m fuel (some x) path' with
          | ok b =>
            cases b with
            | true =>
              rcases List.mem_cons.mp hr with heq | hr'
              · subst heq
                exact absurd hres (ih (some r) path' hcyc')
              · exact ihr path' hr'
            | false => simp [hres]
          | oob => simp [hres]
          | fuelOut => simp [hres]
        · simp

/-- The subgraph of a valid node is one of the model's subgraphs. -/
theorem getSubgraph_mem (m : Model13) (g : Option Nat) (hg : ValidNode m g) :
    getSubgraph m g ∈ m.main :: m.referenced := by
  cases g with
  | none => simp [getSubgraph]
  | some i =>
    have hi : i < m.referenced.length := hg
    simp only [getSubgraph]
    rw [List.getD_eq_getElem _ _ hi]
    exact List.mem_cons_of_mem _ (List.getElem_mem hi)

/-- When every reference of every subgraph is in range, the walk never
performs the out-of-bounds access. -/
theorem dfsLevel_no_oob (m : Model13) (hin : AllRefsInRange m) :
    ∀ (fuel : Nat) (gid : Option Nat) (path : List (Option Nat)),
      ValidNode m gid → dfsLevel m fuel gid path ≠ .oob := by
  intro fuel
  induction fuel with
  | zero =>
    intro gid path _
    simp [dfsLevel]
  | succ fuel ih =>
    intro gid path hg
    simp only [dfsLevel]
    by_cases hmem : gid ∈ path
    · simp [hmem]
    · rw [if_neg hmem]
      have hall : ∀ r ∈ subgraphRefs (getSubgraph m gid), r < m.referenced.length :=
        hin _ (getSubgraph_mem m gid hg)
      revert hall
      suffices haux : ∀ refs path', (∀ r ∈ refs, r < m.referenced.length) →
          dfsRefs m (fun r p => dfsLevel m fuel (some r) p) refs path' ≠ .oob by
        exact fun hall => haux _ _ hall
      intro refs
      induction refs with
      | nil =>
        intro _ _
        simp [dfsRefs]
      | cons x rs ihr =>
        intro path' hs
        simp only [dfsRefs]
        rw [if_pos (hs x (by simp))]
        cases hres : dfsLevel m fuel (some x) path' with
        | ok b =>
          cases b with
          | true =>
            exact ihr path' (fun r hr => hs r (List.mem_cons_of_mem _ hr))
          | false => simp [hres]
        | oob => exact absurd hres (ih (some x) path' (hs x (by simp)))
        | fuelOut => simp [hres]

/-- A duplicate-free path of valid nodes is no longer than the number of
subgraphs (`main` plus the referenced ones). -/
theorem validPath_length_le (m : Model13) (l : List (Option Nat)) (hnd : l.Nodup)
    (hval : ∀ g ∈ l, ValidNode m g) : l.length ≤ m.referenced.length + 1 := by
  have hsub : l ⊆ Option.none :: (List.range m.referenced.length).map some := by
    intro g hg
    cases g with
    | none => simp
    | some i =>
      have hi : i < m.referenced.length := hval (some i) hg
      simp only [List.mem_cons, List.mem_map, List.mem_range]
      exact Or.inr ⟨i, hi, rfl⟩
  have hle := (hnd.subperm hsub).length_le
  simpa using hle

/-- With fuel exceeding the longest possible duplicate-free path, the walk
never runs out of fuel. -/
theorem dfsLevel_no_fuelOut (m : Model13) :
    ∀ (fuel : Nat) (gid : Option Nat) (path : List (Option Nat)),
      path.Nodup → (∀ g ∈ path, ValidNode m g) → ValidNode m gid →
      m.referenced.length + 2 ≤ fuel + path.length →
      dfsLevel m fuel gid path ≠ .fuelOut := by
  intro fuel
  induction fuel with
  | zero =>
    intro gid path hnd hval _ hfuel _
    have hlen := validPath_length_le m path hnd hval
    omega
  | succ fuel ih =>
    intro gid path hnd hval hg hfuel
    simp only [dfsLevel]
    by_cases hmem : gid ∈ path
    · simp [hmem]
    · rw [if_neg hmem]
      have hnd' : (gid :: path).Nodup := List.nodup_cons.mpr ⟨hmem, hnd⟩
      have hval' : ∀ g ∈ gid :: path, ValidNode m g := by
        intro g hgm
        rcases List.mem_cons.mp hgm with rfl | hgm'
        · exact hg
        · exact hval g hgm'
      have hfuel' : m.referenced.length + 2 ≤ fuel + (gid :: path).length := by
        simp only [List.length_cons]
        omega
      suffices haux : ∀ refs,
          dfsRefs m (fun r p => dfsLevel m fuel (some r) p) refs (gid :: path) ≠
            .fuelOut by
        exact haux _
      intro refs
      induction refs with
      | nil => simp [dfsRefs]
      | cons x rs ihr =>
        simp only [dfsRefs]
        split
        · rename_i hxN
          cases hres : dfsLevel m fuel (some x) (gid :: path) with
          | ok b =>
            cases b with
            | true =>
              exact ihr
            | false => simp [hres]
          | oob => simp [hres]
          | fuelOut =>
            exact absurd hres (ih (some x) (gid :: path) hnd' hval' hxN hfuel')
        · simp

end AndroidNN

namespace AndroidNN

/-- C3: on a model whose SUBGRAPH references are all in range (as
`validateOperands` guarantees for every model reaching the walk through
`validateModel`), `checkNoReferenceCycles` returns true exactly when no
reference cycle is reachable from `main`, and false exactly when one is
(the walk enters a subgraph already on its recursion stack). -/
theorem claim_C3_check_no_reference_cycles (m : Model13) (hin : AllRefsInRange m) :
    (checkNoReferenceCycles m = DfsResult.ok true ↔ ¬ HasRefCycle m) ∧
    (checkNoReferenceCycles m = DfsResult.ok false ↔ HasRefCycle m) := by
  have hno : checkNoReferenceCycles m ≠ DfsResult.oob :=
    dfsLevel_no_oob m hin (m.referenced.length + 2) Option.none [] trivial
  have hnf : checkNoReferenceCycles m ≠ DfsResult.fuelOut :=
    dfsLevel_no_fuelOut m (m.referenced.length + 2) Option.none [] (by simp) (by simp)
      trivial (by simp)
  have hsound : checkNoReferenceCycles m = DfsResult.ok false → HasRefCycle m :=
    fun h => dfsLevel_false_sound m (m.referenced.length + 2) Option.none [] rfl h
  have hdetect : HasRefCycle m → checkNoReferenceCycles m ≠ DfsResult.ok true :=
    fun h => dfsLevel_cycle_not_true m (m.referenced.length + 2) Option.none [] h
  constructor
  · constructor
    · intro h hcy
      exact hdetect hcy h
    · intro hncy
      cases hres : checkNoReferenceCycles m with
      | ok b =>
        cases b with
        | true => rfl
        | false => exact absurd (hsound hres) hncy
      | oob => exact absurd hres hno
      | fuelOut => exact absurd hres hnf
  · constructor
    · exact hsound
    · intro hcy
      cases hres : checkNoReferenceCycles m with
      | ok b =>
        cases b with
        | true => exact absurd hres (hdetect hcy)
        | false => rfl
      | oob => exact absurd hres hno
      | fuelOut => exact absurd hres hnf

/-- Witness for C3: a concrete two-subgraph model (`main` references
`referenced[0]`, which references nothing) with all references in range, to
which the theorem applies. -/
theorem claim_C3_witness :
    AllRefsInRange
        ⟨⟨[⟨OperandType.SUBGRAPH, [], 0, 0, OperandLifeTime.SUBGRAPH, ⟨0, 0, 0⟩,
            ExtraParams.none⟩], [], [], []⟩, [⟨[], [], [], []⟩], [], [], false⟩ ∧
      (checkNoReferenceCycles
          ⟨⟨[⟨OperandType.SUBGRAPH, [], 0, 0, OperandLifeTime.SUBGRAPH, ⟨0, 0, 0⟩,
              ExtraParams.none⟩], [], [], []⟩, [⟨[], [], [], []⟩], [], [], false⟩ =
          DfsResult.ok true ↔
        ¬ HasRefCycle
          ⟨⟨[⟨OperandType.SUBGRAPH, [], 0, 0, OperandLifeTime.SUBGRAPH, ⟨0, 0, 0⟩,
              ExtraParams.none⟩], [], [], []⟩, [⟨[], [], [], []⟩], [], [], false⟩) := by
  refine ⟨by decide, ?_⟩
  exact (claim_C3_check_no_reference_cycles _ (by decide)).1

/-- Counterexample to C4 as stated: a model whose `main` holds a SUBGRAPH
operand with offset 0 while `referenced` is empty.  The walk does not detect
the out-of-range reference (it does not return `ok false`); it reaches the
unchecked `model.referenced[refSubgraphIndex]` access (undefined behaviour in
the C++, the `oob` marker here). -/
theorem claim_C4_counterexample :
    checkNoReferenceCycles
        ⟨⟨[⟨OperandType.SUBGRAPH, [], 0, 0, OperandLifeTime.SUBGRAPH, ⟨0, 0, 0⟩,
            ExtraParams.none⟩], [], [], []⟩, [], [], [], false⟩ = DfsResult.oob ∧
      DfsResult.oob ≠ DfsResult.ok false := by
  exact ⟨by decide, by decide⟩

/-- C4 amended: the walk itself performs no bounds check; instead
`validateOperands` rejects any subgraph holding an out-of-range SUBGRAPH
reference (so `validateModel` establishes the in-range property before the
walk runs), and on a model whose references are all in range the walk never
reaches the unchecked `referenced[]` access. -/
theorem claim_C4_bounds_check_amended :
    (∀ (sizeOfData : Operand → Nat) (operands : List Operand) (operandValues : List Nat)
        (pools : List HidlMemory) (subgraphs : List Subgraph) (allow : Bool),
      validateOperands validOperandTypeV1_3 sizeOfData operands operandValues pools
          subgraphs allow = true →
      ∀ o ∈ operands, o.lifetime = OperandLifeTime.SUBGRAPH →
        o.location.offset < subgraphs.length) ∧
    (∀ m : Model13, AllRefsInRange m → checkNoReferenceCycles m ≠ DfsResult.oob) := by
  constructor
  · intro sz operands ov pools subgraphs allow h o ho hlife
    have hall := (List.all_eq_true.mp h) o ho
    simp only [Bool.and_eq_true] at hall
    obtain ⟨⟨⟨⟨⟨⟨⟨-, -⟩, -⟩, -⟩, -⟩, hloc⟩, -⟩, -⟩ := hall
    unfold checkOperandLocation at hloc
    rw [hlife] at hloc
    simp only [Bool.and_eq_true, decide_eq_true_eq] at hloc
    exact hloc.1.2
  · intro m hin
    exact dfsLevel_no_oob m hin (m.referenced.length + 2) Option.none [] trivial

/-- Witness for C4 (amended): the first conjunct applied to a concrete
accepted SUBGRAPH operand, and the second to a concrete in-range model. -/
theorem claim_C4_witness :
    (validateOperands validOperandTypeV1_3 (fun _ => 0)
        [⟨OperandType.SUBGRAPH, [], 0, 0, OperandLifeTime.SUBGRAPH, ⟨0, 0, 0⟩,
          ExtraParams.none⟩] [] [] [⟨[], [], [], []⟩] true = true ∧
      (0 : Nat) < 1) ∧
      (AllRefsInRange
          ⟨⟨[⟨OperandType.SUBGRAPH, [], 0, 0, OperandLifeTime.SUBGRAPH, ⟨0, 0, 0⟩,
              ExtraParams.none⟩], [], [], []⟩, [⟨[], [], [], []⟩], [], [], false⟩ ∧
        checkNoReferenceCycles
            ⟨⟨[⟨OperandType.SUBGRAPH, [], 0, 0, OperandLifeTime.SUBGRAPH, ⟨0, 0, 0⟩,
                ExtraParams.none⟩], [], [], []⟩, [⟨[], [], [], []⟩], [], [], false⟩ ≠
          DfsResult.oob) := by
  have hval : validateOperands validOperandTypeV1_3 (fun _ => 0)
      [⟨OperandType.SUBGRAPH, [], 0, 0, OperandLifeTime.SUBGRAPH, ⟨0, 0, 0⟩,
        ExtraParams.none⟩] [] [] [⟨[], [], [], []⟩] true = true := by decide
  refine ⟨⟨hval, ?_⟩, by decide, ?_⟩
  · exact claim_C4_bounds_check_amended.1 (fun _ => 0) _ [] [] [⟨[], [], [], []⟩] true
      hval ⟨OperandType.SUBGRAPH, [], 0, 0, OperandLifeTime.SUBGRAPH, ⟨0, 0, 0⟩,
        ExtraParams.none⟩ (by simp) rfl
  · exact claim_C4_bounds_check_amended.2 _ (by decide)

end AndroidNN

namespace AndroidNN

/-- Witness for C7: a concrete accepted request argument supplying the full
dimensions `[1, 3, 224, 224]` of its model operand, to which the theorem
applies at argument index 0 (its conclusion instantiated to the rank
equality). -/
theorem claim_C7_witness :
    validateRequestArguments [⟨false, ⟨0, 0, 16⟩, [1, 3, 224, 224]⟩] [0]
        [⟨OperandType.TENSOR_FLOAT32, [1, 3, 224, 224], 0, 0,
          OperandLifeTime.SUBGRAPH_INPUT, ⟨0, 0, 0⟩, ExtraParams.none⟩]
        ⟨[1000000]⟩ false = true ∧
      (([⟨false, ⟨0, 0, 16⟩, [1, 3, 224, 224]⟩] : List RequestArgument).getD 0
            default).dimensions.length =
        (([⟨OperandType.TENSOR_FLOAT32, [1, 3, 224, 224], 0, 0,
            OperandLifeTime.SUBGRAPH_INPUT, ⟨0, 0, 0⟩, ExtraParams.none⟩] :
            List Operand).getD (([0] : List Nat).getD 0 0) default).dimensions.length := by
  have hacc : validateRequestArguments [⟨false, ⟨0, 0, 16⟩, [1, 3, 224, 224]⟩] [0]
      [⟨OperandType.TENSOR_FLOAT32, [1, 3, 224, 224], 0, 0,
        OperandLifeTime.SUBGRAPH_INPUT, ⟨0, 0, 0⟩, ExtraParams.none⟩]
      ⟨[1000000]⟩ false = true := by decide
  refine ⟨hacc, ?_⟩
  exact (claim_C7_request_dimension_checks _ _ _ ⟨[1000000]⟩ false hacc 0 (by decide)
    (by decide) (by decide)).1

end AndroidNN
